import Mathlib

/-!
The command `cmd/dbmigrate`: a shallow embedding of `main.go`.


The file embeds the database migration command line tool
(`src/cmd/dbmigrate/main.go`): the stub generator `newMigrationFile`, the
connection step `openDbConnection` and the control flow of `main`.

Conventions of the embedding

* Go strings are Lean `String`s; the character-level helpers work on
  `List Char` (`String.data`).
* Everything the tool calls outside its own file (the file system, the clock,
  the configuration loader, the two database drivers and the migration
  package) is an oracle of the environment `Env`; every such call, and every
  entry into `newMigrationFile` and `openDbConnection`, is recorded as an
  `Event` in the trace of the run, in program order.
* `os.Exit`, a normal return and a nil-pointer panic are the three ways a Go
  function can finish: `Res`.
* `flag.Parse()` works on the default flag set, which ends the process when it
  does not accept the command line; the environment says which values it read
  and whether it returned (`Env.flagParseExit`).
* `path/filepath` is modelled for Unix-like systems (separator `/`, no volume
  names).
-/

namespace DbMigrate

/-! ## strconv -/

/-- The decimal digit character of `d` (for `d < 10`). -/
def digitChar (d : Nat) : Char := Char.ofNat (48 + d)

/-- Digits of an unsigned number, most significant first; `fuel` bounds the
number of digits produced (the loop of `strconv.formatBits` for base 10). -/
def formatBits : Nat → Nat → List Char
  | 0, _ => []
  | fuel + 1, u =>
    if u < 10 then [digitChar u]
    else formatBits fuel (u / 10) ++ [digitChar (u % 10)]

/-- The result of `strconv.FormatUint(u, 10)` as a character list. -/
def formatUint (u : Nat) : List Char := formatBits (u + 1) u

/-- The function `strconv.FormatInt(i, 10)`: a minus sign for negative numbers followed by
the decimal digits of the magnitude. -/
def formatInt (i : Int) : String :=
  if i < 0 then String.mk ('-' :: formatUint i.natAbs)
  else String.mk (formatUint i.natAbs)

/-- Value of a decimal digit character, `none` for any other character. -/
def digitVal (c : Char) : Option Nat :=
  if 48 ≤ c.toNat ∧ c.toNat ≤ 57 then some (c.toNat - 48) else none

/-- The digit loop of `strconv.ParseUint` for base 10, without the width check:
`acc` is the value read so far; any non-digit is a syntax error. -/
def parseDigits : Nat → List Char → Option Nat
  | acc, [] => some acc
  | acc, c :: cs =>
    match digitVal c with
    | none => none
    | some d => parseDigits (acc * 10 + d) cs

/-- The function `strconv.ParseUint(s, 10, 64)` without the range check: the empty string is
a syntax error. -/
def parseUint (cs : List Char) : Option Nat :=
  match cs with
  | [] => none
  | _ => parseDigits 0 cs

/-- The function `strconv.ParseInt(s, 10, 64)`: optional sign, decimal digits, and the
result must fit in a signed 64-bit integer. -/
def parseInt (s : String) : Option Int :=
  match s.data with
  | [] => none
  | '-' :: cs =>
    match parseUint cs with
    | none => none
    | some u => if u > 2 ^ 63 then none else some (-(u : Int))
  | '+' :: cs =>
    match parseUint cs with
    | none => none
    | some u => if u ≥ 2 ^ 63 then none else some (u : Int)
  | cs =>
    match parseUint cs with
    | none => none
    | some u => if u ≥ 2 ^ 63 then none else some (u : Int)

/-- The function `strings.Cut(s, "_")`: the text before and after the first underscore,
`none` when there is no underscore. -/
def cutUnderscore : List Char → Option (List Char × List Char)
  | [] => none
  | c :: cs =>
    if c = '_' then some ([], cs)
    else match cutUnderscore cs with
      | none => none
      | some (a, b) => some (c :: a, b)

/-! ## path/filepath (Unix) -/

/-- Path elements: the pieces of a path between separators (`/`). -/
def splitSep : List Char → List (List Char)
  | [] => [[]]
  | c :: cs =>
    if c = '/' then [] :: splitSep cs
    else match splitSep cs with
      | [] => [[c]]
      | e :: es => (c :: e) :: es

/-- One iteration of the loop of `filepath.Clean` on the path element `e`;
`st` is the output so far as a stack of elements, last one first.
Empty and `.` elements are dropped; `..` removes the last real element, is
kept at the front of a relative path and dropped at the root. -/
def cleanStep (rooted : Bool) (st : List (List Char)) (e : List Char) :
    List (List Char) :=
  if e = [] ∨ e = ['.'] then st
  else if e = ['.', '.'] then
    match st with
    | [] => if rooted then [] else [e]
    | top :: rest =>
      if top = ['.', '.'] then (if rooted then st else e :: st) else rest
  else e :: st

/-- The output buffer of `filepath.Clean`: the elements of the stack (last one
first) written in order with single separators between them. -/
def joinStack : List (List Char) → List Char
  | [] => []
  | [e] => e
  | e :: rest => joinStack rest ++ '/' :: e

/-- The function `filepath.Clean` on a character list. -/
def cleanChars (path : List Char) : List Char :=
  match path with
  | [] => ['.']
  | c :: _ =>
    let rooted : Bool := c = '/'
    let st := (splitSep path).foldl (cleanStep rooted) []
    let out := if rooted then '/' :: joinStack st else joinStack st
    if out = [] then ['.'] else out

/-- The function `filepath.Clean`. -/
def filepathClean (path : String) : String := ⟨cleanChars path.data⟩

/-- The function `filepath.Join(a, b)`: leading empty elements are ignored, the remaining
ones are joined with the separator and the result is cleaned. -/
def filepathJoin (a b : String) : String :=
  if a ≠ "" then filepathClean (a ++ "/" ++ b)
  else if b ≠ "" then filepathClean b
  else ""

/-- The function `filepath.Base` on a character list: trailing separators are stripped and
the last element is returned; `.` for the empty path, `/` for a path of
separators only. -/
def baseChars (path : List Char) : List Char :=
  match path with
  | [] => ['.']
  | _ =>
    let stripped := path.reverse.dropWhile (fun c => c = '/')
    let last := (stripped.takeWhile (fun c => c ≠ '/')).reverse
    if last = [] then ['/'] else last

/-- The function `filepath.Base`. -/
def filepathBase (path : String) : String := ⟨baseChars path.data⟩

/-! ## Data model of the command -/

/-- Go `error` values, identified with their message. -/
abbrev Error := String

/-- A live `*sql.DB` connection pool. -/
structure SqlDB where
  handle : Nat
  deriving DecidableEq, Repr

/-- The part of `database.Database` the command uses: the pointer `SQL`
(`none` is the nil pointer). -/
structure Database where
  SQL : Option SqlDB
  deriving DecidableEq, Repr

/-- Implementations of the migration package's logger; the command has one. -/
inductive Logger where
  | tmpLogger
  deriving DecidableEq, Repr

/-- The fields of `mg.Migrator` that `main` sets: the logger and the
connection (`none` is the nil pointer). -/
structure Migrator where
  Log : Logger
  Conn : Option Database
  deriving DecidableEq, Repr

/-- The part of the loaded configuration `main` reads: `conf.Database.Driver`
and `conf.Database.Host`. -/
structure Config where
  Driver : String
  Host : String
  deriving DecidableEq, Repr

/-- The calls of a run, in the order they are made: entries into the two
helper functions of `main.go` and the calls that leave the file. -/
inductive Event where
  | enterNewMigrationFile (filename : String)
  | enterOpenDbConnection (driver : String)
  | println (msg : String)
  | printErr (err : Error)
  | getFilePath
  | flagParse
  | createDir (dir : String)
  | printfCreating (path : String)
  | osCreate (path : String)
  | fileWrite (path : String) (data : String)
  | fileClose (path : String)
  | loadMigrations (m : Migrator)
  | loadConfig (file : String)
  | postgresConnect
  | sqliteConnect
  | setMaxOpenConns (db : SqlDB) (n : Nat)
  | setMaxIdleConns (db : SqlDB) (n : Nat)
  | setConnMaxLifetimeHours (db : SqlDB) (hours : Nat)
  | printfConnected (host : String)
  | runMigration (m : Migrator)
  | sqlClose (db : SqlDB)
  deriving DecidableEq, Repr

/-- The package-level variables of `main.go` and the trace of the run. -/
structure State where
  dbConn : Option Database
  configFile : String
  defaultDataDir : String
  createMigration : String
  migrationDir : String
  trace : List Event
  deriving DecidableEq, Repr

/-- Everything outside `main.go`: the command line, the constants of other
packages and the results of the calls the command makes. -/
structure Env where
  /-- Value of `core.Copyright`. -/
  copyright : String
  /-- Value of `mg.MigrationDir`. -/
  mgMigrationDir : String
  /-- Value of `common.GetDefaultDataDir(runtime.GOOS)`. -/
  dataDirDefault : String
  /-- Result of `config.GetFilePath("")`. -/
  getFilePath : Except Error String
  /-- Value `flag.Parse()` reads for `--config`, if any. -/
  flagConfig : Option String
  /-- Value `flag.Parse()` reads for `--datadir`, if any. -/
  flagDataDir : Option String
  /-- Value `flag.Parse()` reads for `--create`, if any. -/
  flagCreate : Option String
  /-- Value `flag.Parse()` reads for `--migrationdir`, if any. -/
  flagMigrationDir : Option String
  /-- Exit code with which `flag.Parse()` ends the process when it does not
  accept the command line (the default flag set exits on error: 2 for an
  undefined or malformed flag, 0 for `-h`); `none` when it returns. -/
  flagParseExit : Option Nat
  /-- Value of `time.Now().Unix()`. -/
  now : Int
  /-- Result of `common.CreateDir(dir)`. -/
  createDir : String → Option Error
  /-- Error result of `os.Create(path)`. -/
  osCreate : String → Option Error
  /-- Error result of `f.Write(data)` on the file created at `path`. -/
  fileWrite : String → String → Option Error
  /-- Result of `f.Close()` on the file created at `path`. -/
  fileClose : String → Option Error
  /-- Result of `LoadMigrations` on a migrator. -/
  loadMigrations : Migrator → Option Error
  /-- Result of `conf.LoadConfig(file)`. -/
  loadConfig : String → Except Error Config
  /-- Both results of the postgres driver's `Connect()`. -/
  postgresConnect : Option Database × Option Error
  /-- Both results of the sqlite driver's `Connect()`. -/
  sqliteConnect : Option Database × Option Error
  /-- Result of `RunMigration` on a migrator. -/
  runMigration : Migrator → Option Error
  /-- Result of `Close()` on a connection pool. -/
  sqlClose : SqlDB → Option Error

/-- How a Go function finishes: it returns, the process exits through
`os.Exit`, or it panics on a nil pointer. -/
inductive Res (α : Type) where
  | ret (a : α) (s : State)
  | exit (code : Nat) (s : State)
  | panic (s : State)
  deriving DecidableEq, Repr

/-- State at the end of the run. -/
def Res.state {α : Type} : Res α → State
  | .ret _ s => s
  | .exit _ s => s
  | .panic s => s

/-- Exit code of the process when `main` finishes: 0 after a normal return,
the argument of `os.Exit`, 2 after a panic. -/
def Res.exitCode : Res Unit → Nat
  | .ret _ _ => 0
  | .exit code _ => code
  | .panic _ => 2

/-- Record a call in the trace. -/
def State.emit (s : State) (e : Event) : State :=
  { s with trace := s.trace ++ [e] }

/-- State at process start: all package-level variables hold their zero
value. -/
def initState : State :=
  { dbConn := none, configFile := "", defaultDataDir := "",
    createMigration := "", migrationDir := "", trace := [] }

/-! ## The functions of `main.go` -/

/-- Contents of a new migration file (`defaultMigration`). -/
def defaultMigration : String := "-- up\n-- down\n"

/-- Message of the error `openDbConnection` returns when `Connect` fails with
`err`. -/
def connectError (err : Error) : Error :=
  "database failed to connect: " ++ err ++
    " Some features that utilise a database will be unavailable"

/-- The function `openDbConnection(driver)`. -/
def openDbConnection (env : Env) (driver : String) (s : State) :
    Res (Option Error) :=
  let s := s.emit (.enterOpenDbConnection driver)
  if driver = "postgres" then
    let s := s.emit .postgresConnect
    let s := { s with dbConn := env.postgresConnect.1 }
    match env.postgresConnect.2 with
    | some err => .ret (some (connectError err)) s
    | none =>
      match s.dbConn with
      | none => .panic s
      | some conn =>
        match conn.SQL with
        | none => .panic s
        | some db =>
          let s := s.emit (.setMaxOpenConns db 2)
          let s := s.emit (.setMaxIdleConns db 1)
          let s := s.emit (.setConnMaxLifetimeHours db 1)
          .ret none s
  else if driver = "sqlite" then
    let s := s.emit .sqliteConnect
    let s := { s with dbConn := env.sqliteConnect.1 }
    match env.sqliteConnect.2 with
    | some err => .ret (some (connectError err)) s
    | none => .ret none s
  else .ret none s

/-- File name of the stub created at Unix time `now` for `filename`. -/
def stubFileName (now : Int) (filename : String) : String :=
  formatInt now ++ "_" ++ filename ++ ".sql"

/-- The function `newMigrationFile(filename)`. -/
def newMigrationFile (env : Env) (filename : String) (s : State) :
    Option Error × State :=
  let s := s.emit (.enterNewMigrationFile filename)
  let curTime := formatInt env.now
  let path := filepathJoin s.migrationDir (curTime ++ "_" ++ filename ++ ".sql")
  let s := s.emit (.createDir s.migrationDir)
  match env.createDir s.migrationDir with
  | some err => (some err, s)
  | none =>
    let s := s.emit (.printfCreating path)
    let s := s.emit (.osCreate path)
    match env.osCreate path with
    | some err => (some err, s)
    | none =>
      let s := s.emit (.fileWrite path defaultMigration)
      match env.fileWrite path defaultMigration with
      | some err => (some err, s)
      | none =>
        let s := s.emit (.fileClose path)
        (env.fileClose path, s)

/-- The four `flag.StringVar` definitions and the assignments `flag.Parse()`
makes: each flag variable holds the value read from the command line, or else
its default. Whether `flag.Parse()` then returns or ends the process is
`Env.flagParseExit`, which `main` inspects right after. -/
def parseFlags (env : Env) (defaultPath : String) (s : State) : State :=
  { s with
    configFile := env.flagConfig.getD defaultPath,
    defaultDataDir := env.flagDataDir.getD env.dataDirDefault,
    createMigration := env.flagCreate.getD "",
    migrationDir := env.flagMigrationDir.getD env.mgMigrationDir,
    trace := s.trace ++ [Event.flagParse] }

/-- The part of `main` after the configuration was loaded: connect, run the
migrations, close the connection. -/
def mainConnected (env : Env) (temp : Migrator) (conf : Config) (s : State) :
    Res Unit :=
  match openDbConnection env conf.Driver s with
  | .panic s => .panic s
  | .exit code s => .exit code s
  | .ret (some err) s => .exit 1 (s.emit (.printErr err))
  | .ret none s =>
    let s := s.emit (.printfConnected conf.Host)
    let temp := { temp with Conn := s.dbConn }
    let s := s.emit (.runMigration temp)
    match env.runMigration temp with
    | some err => .exit 1 (s.emit (.printErr err))
    | none =>
      match s.dbConn with
      | none => .panic s
      | some conn =>
        match conn.SQL with
        | none => .ret () s
        | some db =>
          let s := s.emit (.sqlClose db)
          match env.sqlClose db with
          | some err => .ret () (s.emit (.printErr err))
          | none => .ret () s

/-- The function `main`, from process start. -/
def main (env : Env) : Res Unit :=
  let s := initState
  let s := s.emit (.println "GoCryptoTrader database migration tool")
  let s := s.emit (.println env.copyright)
  let s := s.emit (.println "")
  let s := s.emit .getFilePath
  match env.getFilePath with
  | .error err => .exit 1 (s.emit (.printErr err))
  | .ok defaultPath =>
    let s := parseFlags env defaultPath s
    match env.flagParseExit with
    | some code => .exit code s
    | none =>
      if s.createMigration ≠ "" then
        match newMigrationFile env s.createMigration s with
        | (some err, s) => .exit 1 (s.emit (.printErr err))
        | (none, s) => .exit 0 (s.emit (.println "Migration created successfully"))
      else
        let temp : Migrator := { Log := .tmpLogger, Conn := none }
        let s := s.emit (.loadMigrations temp)
        match env.loadMigrations temp with
        | some err => .exit 0 (s.emit (.printErr err))
        | none =>
          let s := s.emit (.loadConfig s.configFile)
          match env.loadConfig s.configFile with
          | .error err => .exit 0 (s.emit (.printErr err))
          | .ok conf => mainConnected env temp conf s

/-! ## Vocabulary of the statements -/

/-- A decimal digit character. -/
def isDigit (c : Char) : Prop := 48 ≤ c.toNat ∧ c.toNat ≤ 57

/-- A path element that `filepath.Clean` keeps as it is: not empty, not `.`,
not `..`, and free of separators. -/
def plainElem (f : List Char) : Prop :=
  f ≠ [] ∧ f ≠ ['.'] ∧ f ≠ ['.', '.'] ∧ '/' ∉ f

/-- The path `newMigrationFile` computes for the stub `filename` when the
migration directory is `dir` and the Unix time is `now`. -/
def stubPath (dir : String) (now : Int) (filename : String) : String :=
  filepathJoin dir (formatInt now ++ "_" ++ filename ++ ".sql")

/-- The events a function added to the trace: those of `after` that follow the
trace of `before`. -/
def newEvents (before after : State) : List Event :=
  after.trace.drop before.trace.length

/-- The version prefix of a migration file name: the text before its first
underscore, `none` when the name has no underscore. -/
def versionPrefix (fileName : String) : Option String :=
  (cutUnderscore fileName.data).map (fun parts => String.mk parts.1)

/-- Modelled from the spec: the migration package's file store is not part of
the sources at hand; it reads the version of a migration file from its file
name `<version>_<name>.<ext>` (sections 3, 4.1 and 6 of the specification), an
integer written in base 10 before the first underscore; a name that does not
parse is malformed (`none`). -/
def parseVersion (fileName : String) : Option Int :=
  match versionPrefix fileName with
  | none => none
  | some v => parseInt v

/-- Entries into `newMigrationFile`. -/
def Event.isStubCall : Event → Bool
  | .enterNewMigrationFile _ => true
  | _ => false

/-- Calls that create or write a file. -/
def Event.isFileCreation : Event → Bool
  | .osCreate _ => true
  | .fileWrite _ _ => true
  | .fileClose _ => true
  | _ => false

/-- Calls of `LoadMigrations` and `LoadConfig`. -/
def Event.isLoad : Event → Bool
  | .loadMigrations _ => true
  | .loadConfig _ => true
  | _ => false

/-- Database interactions: `openDbConnection`, either driver's `Connect`, the
pool settings, `RunMigration` and closing the pool. -/
def Event.isDatabase : Event → Bool
  | .enterOpenDbConnection _ => true
  | .postgresConnect => true
  | .sqliteConnect => true
  | .setMaxOpenConns _ _ => true
  | .setMaxIdleConns _ _ => true
  | .setConnMaxLifetimeHours _ _ => true
  | .runMigration _ => true
  | .sqlClose _ => true
  | _ => false

/-- A run in which every call succeeds: no flags, a postgres configuration, a
live connection. -/
def sampleEnv : Env :=
  { copyright := "(c) GoCryptoTrader",
    mgMigrationDir := "../../database/migration/migrations",
    dataDirDefault := "/home/user/.gocryptotrader",
    getFilePath := .ok "/home/user/.gocryptotrader/config.json",
    flagConfig := none, flagDataDir := none, flagCreate := none,
    flagMigrationDir := none, flagParseExit := none,
    now := 1700000000,
    createDir := fun _ => none,
    osCreate := fun _ => none,
    fileWrite := fun _ _ => none,
    fileClose := fun _ => none,
    loadMigrations := fun _ => none,
    loadConfig := fun _ => .ok { Driver := "postgres", Host := "localhost" },
    postgresConnect := (some { SQL := some ⟨1⟩ }, none),
    sqliteConnect := (some { SQL := some ⟨2⟩ }, none),
    runMigration := fun _ => none,
    sqlClose := fun _ => none }

/-- The environment of `sampleEnv` one second later. -/
def laterEnv : Env :=
  { sampleEnv with now := 1700000001 }

/-- A run without flags in which `LoadMigrations` fails. -/
def loadErrorEnv : Env :=
  { sampleEnv with loadMigrations := fun _ => some "duplicate version" }

/-- A run without flags whose configuration names the driver `mysql`. -/
def mysqlEnv : Env :=
  { sampleEnv with loadConfig := fun _ => .ok { Driver := "mysql", Host := "localhost" } }

/-- Replace the value of the package-level variable `migrationDir`. -/
def State.setMigrationDir (dir : String) (s : State) : State :=
  { s with migrationDir := dir }

/-- Apply a change to the final state of a result. -/
def Res.mapState {α : Type} (f : State → State) : Res α → Res α
  | .ret a s => .ret a (f s)
  | .exit code s => .exit code (f s)
  | .panic s => .panic (f s)

/-- State of `main` right after `flag.Parse()`, when `config.GetFilePath`
returned `defaultPath`. -/
def parsedState (env : Env) (defaultPath : String) : State :=
  parseFlags env defaultPath
    ((((initState.emit (.println "GoCryptoTrader database migration tool")).emit
      (.println env.copyright)).emit (.println "")).emit .getFilePath)

/-- The migrator `main` builds before loading: only the logger is set. -/
def freshMigrator : Migrator := { Log := .tmpLogger, Conn := none }

/-! ## Checks of the library models on known values -/

theorem strconv_known_values :
    formatInt 1700000000 = "1700000000" ∧ formatInt (-42) = "-42" ∧ formatInt 0 = "0" ∧
    parseInt "1700000000" = some 1700000000 ∧ parseInt "-42" = some (-42) ∧
    parseInt "+7" = some 7 ∧ parseInt "4_2" = none ∧ parseInt "" = none ∧
    parseInt "-" = none ∧ parseInt "9223372036854775808" = none ∧
    parseInt "-9223372036854775808" = some (-9223372036854775808) := by
  decide

theorem filepath_known_values :
    filepathClean "a//b/./c/.." = "a/b" ∧ filepathClean "/../a/../.." = "/" ∧
    filepathClean "../../a/../../b" = "../../../b" ∧ filepathClean "" = "." ∧
    filepathClean "a/.." = "." ∧ filepathClean "/a/b/" = "/a/b" ∧
    filepathJoin "d" "1_a.sql" = "d/1_a.sql" ∧ filepathJoin "" "1_a.sql" = "1_a.sql" ∧
    filepathJoin "../migrations/" "1_a.sql" = "../migrations/1_a.sql" ∧
    filepathBase "d/1_a.sql" = "1_a.sql" ∧ filepathBase "///" = "/" ∧
    filepathBase "a/b//" = "b" ∧ filepathBase "" = "." := by
  decide

/-! ## Lemmas on strconv -/

theorem digitVal_digitChar (d : Nat) (h : d < 10) : digitVal (digitChar d) = some d := by
  interval_cases d <;> decide

theorem digitChar_isDigit (d : Nat) (h : d < 10) :
    48 ≤ (digitChar d).toNat ∧ (digitChar d).toNat ≤ 57 := by
  interval_cases d <;> decide

theorem formatBits_digits (fuel u : Nat) : ∀ c ∈ formatBits fuel u, isDigit c := by
  induction fuel generalizing u with
  | zero => intro c hc; simp [formatBits] at hc
  | succ f ih =>
    intro c hc
    unfold formatBits at hc
    split at hc
    · simp only [List.mem_singleton] at hc
      subst hc
      exact digitChar_isDigit u (by omega)
    · rcases List.mem_append.1 hc with h | h
      · exact ih _ c h
      · simp only [List.mem_singleton] at h
        subst h
        exact digitChar_isDigit _ (Nat.mod_lt _ (by decide))

theorem formatBits_ne_nil (fuel u : Nat) : formatBits (fuel + 1) u ≠ [] := by
  unfold formatBits
  split <;> simp

theorem parseDigits_snoc (acc : Nat) (xs : List Char) (c : Char) :
    parseDigits acc (xs ++ [c]) =
      (parseDigits acc xs).bind (fun a => (digitVal c).map (fun d => a * 10 + d)) := by
  induction xs generalizing acc with
  | nil =>
    simp only [List.nil_append, parseDigits, Option.some_bind]
    cases digitVal c <;> simp [parseDigits]
  | cons x xs ih =>
    simp only [List.cons_append, parseDigits]
    cases digitVal x with
    | none => simp
    | some d => simpa using ih (acc * 10 + d)

theorem parseDigits_formatBits (fuel u : Nat) (h : u < fuel) :
    parseDigits 0 (formatBits fuel u) = some u := by
  induction fuel generalizing u with
  | zero => omega
  | succ f ih =>
    unfold formatBits
    split
    · rename_i hu
      simp [parseDigits, digitVal_digitChar u hu]
    · rename_i hu
      have hlt : u / 10 < f := by omega
      rw [parseDigits_snoc, ih _ hlt, digitVal_digitChar _ (Nat.mod_lt _ (by decide))]
      simp only [Option.map_some', Option.some_bind, Option.some.injEq]
      omega

theorem parseUint_formatUint (u : Nat) : parseUint (formatUint u) = some u := by
  unfold parseUint formatUint
  have hne := formatBits_ne_nil u u
  have hp := parseDigits_formatBits (u + 1) u (by omega)
  split
  · rename_i heq; exact absurd heq hne
  · exact hp

theorem formatUint_digits (u : Nat) : ∀ c ∈ formatUint u, isDigit c :=
  formatBits_digits _ _

theorem formatUint_head (u : Nat) : ∃ c cs, formatUint u = c :: cs ∧ isDigit c := by
  have hne := formatBits_ne_nil u u
  have hd := formatUint_digits u
  unfold formatUint at *
  cases h : formatBits (u + 1) u with
  | nil => exact absurd h hne
  | cons c cs => exact ⟨c, cs, rfl, hd c (by simp [h])⟩

/-- Parsing undoes formatting on the signed 64-bit range. -/
theorem parseInt_formatInt (t : Int) (hlo : -2 ^ 63 ≤ t) (hhi : t < 2 ^ 63) :
    parseInt (formatInt t) = some t := by
  unfold formatInt
  by_cases hneg : t < 0
  · simp only [hneg, if_true, parseInt, parseUint_formatUint]
    have : ¬ t.natAbs > 2 ^ 63 := by omega
    simp only [this, if_false, Option.some.injEq]
    omega
  · simp only [hneg, if_false]
    obtain ⟨c, cs, hcs, hc⟩ := formatUint_head t.natAbs
    have hm : c ≠ '-' := by rintro rfl; revert hc; unfold isDigit; decide
    have hp : c ≠ '+' := by rintro rfl; revert hc; unfold isDigit; decide
    have hparse := parseUint_formatUint t.natAbs
    rw [hcs] at hparse
    unfold parseInt
    simp only [hcs]
    split
    · rename_i h; cases h
    · rename_i h; cases h; exact absurd rfl hm
    · rename_i h; cases h; exact absurd rfl hp
    · rw [hparse]
      have : ¬ t.natAbs ≥ 2 ^ 63 := by omega
      simp only [this, if_false, Option.some.injEq]
      omega

theorem cutUnderscore_append (xs ys : List Char) (h : '_' ∉ xs) :
    cutUnderscore (xs ++ '_' :: ys) = some (xs, ys) := by
  induction xs with
  | nil => simp [cutUnderscore]
  | cons x xs ih =>
    have hx : x ≠ '_' := fun e => h (by simp [e])
    have hxs : '_' ∉ xs := fun e => h (by simp [e])
    simp [cutUnderscore, hx, ih hxs]

/-! ## Lemmas on path/filepath -/

theorem splitSep_ne_nil (a : List Char) : splitSep a ≠ [] := by
  cases a with
  | nil => simp [splitSep]
  | cons c cs =>
    unfold splitSep
    split
    · simp
    · split <;> simp

theorem splitSep_noSep (f : List Char) (h : '/' ∉ f) : splitSep f = [f] := by
  induction f with
  | nil => rfl
  | cons c cs ih =>
    have hc : c ≠ '/' := fun e => h (by simp [e])
    have hcs : '/' ∉ cs := fun e => h (by simp [e])
    simp [splitSep, hc, ih hcs]

theorem splitSep_append (a f : List Char) (h : '/' ∉ f) :
    splitSep (a ++ '/' :: f) = splitSep a ++ [f] := by
  induction a with
  | nil => simp [splitSep, splitSep_noSep f h]
  | cons c cs ih =>
    by_cases hc : c = '/'
    · simp [splitSep, hc, ih]
    · have hne := splitSep_ne_nil cs
      cases hs : splitSep cs with
      | nil => exact absurd hs hne
      | cons e es => simp [splitSep, hc, ih, hs]

theorem cleanStep_plain (rooted : Bool) (st : List (List Char)) (f : List Char)
    (hf : plainElem f) : cleanStep rooted st f = f :: st := by
  obtain ⟨h1, h2, h3, _⟩ := hf
  simp [cleanStep, h1, h2, h3]

theorem joinStack_cons (f : List Char) (st : List (List Char)) :
    joinStack (f :: st) = (if st = [] then [] else joinStack st ++ ['/']) ++ f := by
  cases st with
  | nil => simp [joinStack]
  | cons e es => simp [joinStack]

/-- Cleaning `d/f` for a plain last element `f`: the result is a prefix that
depends on `d` only, empty or ending in a separator, followed by `f`. -/
theorem cleanChars_dir_elem (d : List Char) (hd : d ≠ []) :
    ∃ pre : List Char, (pre = [] ∨ ∃ q, pre = q ++ ['/']) ∧
      ∀ f, plainElem f → cleanChars (d ++ '/' :: f) = pre ++ f := by
  cases d with
  | nil => exact absurd rfl hd
  | cons c cs =>
    let st := (splitSep (c :: cs)).foldl (cleanStep (decide (c = '/'))) []
    by_cases hr : c = '/'
    · refine ⟨ '/' :: (if st = [] then [] else joinStack st ++ ['/']), ?_, ?_⟩
      · right
        by_cases hst : st = []
        · exact ⟨[], by simp [hst]⟩
        · exact ⟨ '/' :: joinStack st, by simp [hst]⟩
      · intro f hf
        subst hr
        have hsplit := splitSep_append ('/' :: cs) f hf.2.2.2
        simp only [List.cons_append] at hsplit
        simp only [cleanChars, List.cons_append, hsplit, List.foldl_append, List.foldl_cons,
          List.foldl_nil, cleanStep_plain _ _ f hf, joinStack_cons]
        simp [st]
    · refine ⟨(if st = [] then [] else joinStack st ++ ['/']), ?_, ?_⟩
      · by_cases hst : st = []
        · left; simp [hst]
        · right; exact ⟨joinStack st, by simp [hst]⟩
      · intro f hf
        have hsplit := splitSep_append (c :: cs) f hf.2.2.2
        simp only [List.cons_append] at hsplit
        simp only [cleanChars, List.cons_append, hsplit, List.foldl_append, List.foldl_cons,
          List.foldl_nil, cleanStep_plain _ _ f hf, joinStack_cons, hr]
        have hne : f ≠ [] := hf.1
        simp [st, hr, hne]

theorem cleanChars_elem (f : List Char) (hf : plainElem f) : cleanChars f = f := by
  obtain ⟨h1, h2, h3, h4⟩ := hf
  cases f with
  | nil => exact absurd rfl h1
  | cons c cs =>
    have hc : c ≠ '/' := fun e => h4 (by simp [e])
    have hs := splitSep_noSep (c :: cs) h4
    simp [cleanChars, hs, cleanStep, h2, h3, hc, joinStack]

theorem filepathJoin_elem (d : String) :
    ∃ pre : List Char, (pre = [] ∨ ∃ q, pre = q ++ ['/']) ∧
      ∀ f : String, plainElem f.data → (filepathJoin d f).data = pre ++ f.data := by
  by_cases hd : d = ""
  · refine ⟨[], Or.inl rfl, ?_⟩
    intro f hf
    have hfne : f ≠ "" := by
      intro e
      exact hf.1 (by rw [e])
    simp [filepathJoin, hd, hfne, filepathClean, cleanChars_elem f.data hf]
  · have hdd : d.data ≠ [] := by
      intro e
      exact hd (String.ext e)
    obtain ⟨pre, hpre, hall⟩ := cleanChars_dir_elem d.data hdd
    refine ⟨pre, hpre, ?_⟩
    intro f hf
    have := hall f.data hf
    simp only [filepathJoin, ne_eq, hd, not_false_eq_true, if_true, filepathClean,
      String.data_append]
    simpa using this

theorem baseChars_elem (pre f : List Char) (hpre : pre = [] ∨ ∃ q, pre = q ++ ['/'])
    (hne : f ≠ []) (hsep : '/' ∉ f) : baseChars (pre ++ f) = f := by
  have hrev : ∀ c ∈ f.reverse, c ≠ '/' := by
    intro c hc e
    exact hsep (by simpa [e] using hc)
  obtain ⟨x, xs, hx⟩ : ∃ x xs, f.reverse = x :: xs := by
    cases h : f.reverse with
    | nil => exact absurd (List.reverse_eq_nil_iff.1 h) hne
    | cons x xs => exact ⟨x, xs, rfl⟩
  have hxne : x ≠ '/' := hrev x (by simp [hx])
  have hdrop : (pre ++ f).reverse.dropWhile (fun c => decide (c = '/'))
      = f.reverse ++ pre.reverse := by
    simp [hx, hxne]
  have htake : (f.reverse ++ pre.reverse).takeWhile (fun c => decide (c ≠ '/'))
      = f.reverse := by
    rw [List.takeWhile_append_of_pos (by simpa using hrev)]
    rcases hpre with h | ⟨q, h⟩
    · simp [h]
    · simp [h]
  have hpf : pre ++ f ≠ [] := by simp [hne]
  unfold baseChars
  split
  · rename_i h; exact absurd h hpf
  · simp only [hdrop, htake, List.reverse_reverse, hne, if_false]

theorem formatInt_chars (t : Int) : ∀ c ∈ (formatInt t).data, isDigit c ∨ c = '-' := by
  intro c hc
  unfold formatInt at hc
  split at hc
  · simp only [List.mem_cons] at hc
    rcases hc with h | h
    · exact Or.inr h
    · exact Or.inl (formatUint_digits _ c h)
  · exact Or.inl (formatUint_digits _ c hc)

theorem formatInt_no_underscore (t : Int) : '_' ∉ (formatInt t).data := by
  intro h
  rcases formatInt_chars t _ h with h | h
  · revert h; unfold isDigit; decide
  · revert h; decide

theorem formatInt_no_sep (t : Int) : '/' ∉ (formatInt t).data := by
  intro h
  rcases formatInt_chars t _ h with h | h
  · revert h; unfold isDigit; decide
  · revert h; decide

theorem stubFileName_data (t : Int) (n : String) :
    (stubFileName t n).data = (formatInt t).data ++ '_' :: (n.data ++ ".sql".data) := by
  simp [stubFileName]

theorem stubFileName_plain (t : Int) (n : String) (hn : '/' ∉ n.data) :
    plainElem (stubFileName t n).data := by
  have hmem : '_' ∈ (stubFileName t n).data := by simp [stubFileName_data]
  refine ⟨?_, ?_, ?_, ?_⟩
  · intro e; rw [e] at hmem; simp at hmem
  · intro e; rw [e] at hmem; revert hmem; decide
  · intro e; rw [e] at hmem; revert hmem; decide
  · rw [stubFileName_data]
    intro h
    rcases List.mem_append.1 h with h | h
    · exact formatInt_no_sep t h
    · rcases List.mem_cons.1 h with h | h
      · revert h; decide
      · rcases List.mem_append.1 h with h | h
        · exact hn h
        · revert h; decide

theorem stubFileName_inj (t : Int) (n1 n2 : String)
    (h : (stubFileName t n1).data = (stubFileName t n2).data) : n1 = n2 := by
  rw [stubFileName_data, stubFileName_data] at h
  have h1 := List.append_cancel_left h
  simp only [List.cons.injEq, true_and] at h1
  exact String.ext (List.append_cancel_right h1)

/-! ## The stub generator -/

/-- The stub generator only appends to the trace; the package-level variables
keep their values. -/
theorem newMigrationFile_frame (env : Env) (filename : String) (s : State) :
    (newMigrationFile env filename s).2.dbConn = s.dbConn ∧
    (newMigrationFile env filename s).2.migrationDir = s.migrationDir ∧
    (newMigrationFile env filename s).2.createMigration = s.createMigration ∧
    (newMigrationFile env filename s).2.configFile = s.configFile := by
  simp only [newMigrationFile, stubPath, State.emit]
  cases env.createDir s.migrationDir <;>
    cases env.osCreate (filepathJoin s.migrationDir
      (formatInt env.now ++ "_" ++ filename ++ ".sql")) <;>
    cases env.fileWrite (filepathJoin s.migrationDir
      (formatInt env.now ++ "_" ++ filename ++ ".sql")) defaultMigration <;> simp

/-- The events the stub generator adds to the trace, step by step. -/
theorem newMigrationFile_trace (env : Env) (filename : String) (s : State) :
    (newMigrationFile env filename s).2.trace =
      s.trace ++ Event.enterNewMigrationFile filename :: Event.createDir s.migrationDir ::
        (match env.createDir s.migrationDir with
          | some _ => []
          | none =>
            Event.printfCreating (stubPath s.migrationDir env.now filename) ::
            Event.osCreate (stubPath s.migrationDir env.now filename) ::
            (match env.osCreate (stubPath s.migrationDir env.now filename) with
              | some _ => []
              | none =>
                Event.fileWrite (stubPath s.migrationDir env.now filename) defaultMigration ::
                (match env.fileWrite (stubPath s.migrationDir env.now filename)
                    defaultMigration with
                  | some _ => []
                  | none => [Event.fileClose (stubPath s.migrationDir env.now filename)]))) := by
  simp only [newMigrationFile, stubPath, State.emit]
  cases env.createDir s.migrationDir <;>
    cases env.osCreate (filepathJoin s.migrationDir
      (formatInt env.now ++ "_" ++ filename ++ ".sql")) <;>
    cases env.fileWrite (filepathJoin s.migrationDir
      (formatInt env.now ++ "_" ++ filename ++ ".sql")) defaultMigration <;> simp

/-- The error the stub generator returns is the first error among its four
steps, in program order. -/
theorem newMigrationFile_result (env : Env) (filename : String) (s : State) :
    (newMigrationFile env filename s).1 =
      match env.createDir s.migrationDir with
      | some err => some err
      | none =>
        match env.osCreate (stubPath s.migrationDir env.now filename) with
        | some err => some err
        | none =>
          match env.fileWrite (stubPath s.migrationDir env.now filename) defaultMigration with
          | some err => some err
          | none => env.fileClose (stubPath s.migrationDir env.now filename) := by
  simp only [newMigrationFile, stubPath, State.emit]
  cases env.createDir s.migrationDir <;>
    cases env.osCreate (filepathJoin s.migrationDir
      (formatInt env.now ++ "_" ++ filename ++ ".sql")) <;>
    cases env.fileWrite (filepathJoin s.migrationDir
      (formatInt env.now ++ "_" ++ filename ++ ".sql")) defaultMigration <;> simp

/-- The stub generator makes no database call and loads nothing. -/
theorem newMigrationFile_events (env : Env) (filename : String) (s : State) :
    ∃ evs, (newMigrationFile env filename s).2.trace = s.trace ++ evs ∧
      ∀ ev ∈ evs, ev.isDatabase = false ∧ ev.isLoad = false := by
  refine ⟨_, newMigrationFile_trace env filename s, ?_⟩
  cases env.createDir s.migrationDir <;>
    cases env.osCreate (stubPath s.migrationDir env.now filename) <;>
    cases env.fileWrite (stubPath s.migrationDir env.now filename) defaultMigration <;>
    simp [Event.isDatabase, Event.isLoad]

/-- C5: `newMigrationFile` starts by ensuring the migration directory exists
and returns an error exactly when one of its steps (create the directory,
create the file, write the content, close the file) fails; the error is that
of the first failing step and the trace ends with that step, so a failed
directory step is followed by no file creation or write; the connection handle
`dbConn` keeps its value and no database call is made. -/
theorem newMigrationFile_error_handling (env : Env) (filename : String) (s : State) :
    ((newMigrationFile env filename s).1 ≠ none ↔
      env.createDir s.migrationDir ≠ none ∨
      env.osCreate (stubPath s.migrationDir env.now filename) ≠ none ∨
      env.fileWrite (stubPath s.migrationDir env.now filename) defaultMigration ≠ none ∨
      env.fileClose (stubPath s.migrationDir env.now filename) ≠ none) ∧
    (∀ err, env.createDir s.migrationDir = some err →
      (newMigrationFile env filename s).1 = some err ∧
      (newMigrationFile env filename s).2.trace =
        s.trace ++ [Event.enterNewMigrationFile filename, Event.createDir s.migrationDir] ∧
      ∀ ev ∈ (newMigrationFile env filename s).2.trace,
        ev.isFileCreation = true → ev ∈ s.trace) ∧
    (∀ err, env.createDir s.migrationDir = none →
      env.osCreate (stubPath s.migrationDir env.now filename) = some err →
      (newMigrationFile env filename s).1 = some err ∧
      (newMigrationFile env filename s).2.trace =
        s.trace ++ [Event.enterNewMigrationFile filename, Event.createDir s.migrationDir,
          Event.printfCreating (stubPath s.migrationDir env.now filename),
          Event.osCreate (stubPath s.migrationDir env.now filename)]) ∧
    (∀ err, env.createDir s.migrationDir = none →
      env.osCreate (stubPath s.migrationDir env.now filename) = none →
      env.fileWrite (stubPath s.migrationDir env.now filename) defaultMigration = some err →
      (newMigrationFile env filename s).1 = some err ∧
      (newMigrationFile env filename s).2.trace =
        s.trace ++ [Event.enterNewMigrationFile filename, Event.createDir s.migrationDir,
          Event.printfCreating (stubPath s.migrationDir env.now filename),
          Event.osCreate (stubPath s.migrationDir env.now filename),
          Event.fileWrite (stubPath s.migrationDir env.now filename) defaultMigration]) ∧
    (env.createDir s.migrationDir = none →
      env.osCreate (stubPath s.migrationDir env.now filename) = none →
      env.fileWrite (stubPath s.migrationDir env.now filename) defaultMigration = none →
      (newMigrationFile env filename s).1 =
        env.fileClose (stubPath s.migrationDir env.now filename) ∧
      (newMigrationFile env filename s).2.trace =
        s.trace ++ [Event.enterNewMigrationFile filename, Event.createDir s.migrationDir,
          Event.printfCreating (stubPath s.migrationDir env.now filename),
          Event.osCreate (stubPath s.migrationDir env.now filename),
          Event.fileWrite (stubPath s.migrationDir env.now filename) defaultMigration,
          Event.fileClose (stubPath s.migrationDir env.now filename)]) ∧
    (newMigrationFile env filename s).2.dbConn = s.dbConn ∧
    (∀ ev ∈ (newMigrationFile env filename s).2.trace, ev.isDatabase = true → ev ∈ s.trace) := by
  have hres := newMigrationFile_result env filename s
  have htr := newMigrationFile_trace env filename s
  have hfr := (newMigrationFile_frame env filename s).1
  refine ⟨?_, ?_, ?_, ?_, ?_, hfr, ?_⟩
  · rw [hres]
    cases env.createDir s.migrationDir <;>
      cases env.osCreate (stubPath s.migrationDir env.now filename) <;>
      cases env.fileWrite (stubPath s.migrationDir env.now filename) defaultMigration <;> simp
  · intro err h
    rw [hres, htr, h]
    refine ⟨rfl, rfl, ?_⟩
    intro ev hev hfile
    rcases List.mem_append.1 hev with hev | hev
    · exact hev
    · exfalso
      have hnot : ∀ x ∈ [Event.enterNewMigrationFile filename,
          Event.createDir s.migrationDir], x.isFileCreation = false := by
        simp [Event.isFileCreation]
      rw [hnot ev hev] at hfile
      cases hfile
  · intro err h1 h2
    rw [hres, htr, h1]
    simp only [h2, and_self]
  · intro err h1 h2 h3
    rw [hres, htr, h1]
    simp only [h2, h3, and_self]
  · intro h1 h2 h3
    rw [hres, htr, h1]
    simp only [h2, h3, and_self]
  · intro ev hev hdb
    obtain ⟨evs, hevs, hall⟩ := newMigrationFile_events env filename s
    rw [hevs] at hev
    rcases List.mem_append.1 hev with hev | hev
    · exact hev
    · rw [(hall ev hev).1] at hdb
      cases hdb

/-- Witness of C5: the directory cannot be created. -/
theorem newMigrationFile_error_handling_witness :
    (newMigrationFile { sampleEnv with createDir := fun _ => some "permission denied" }
        "add_users" { initState with migrationDir := "migs" }).1 = some "permission denied" ∧
    (newMigrationFile { sampleEnv with createDir := fun _ => some "permission denied" }
        "add_users" { initState with migrationDir := "migs" }).2.trace =
      [] ++ [Event.enterNewMigrationFile "add_users", Event.createDir "migs"] ∧
    ∀ ev ∈ (newMigrationFile { sampleEnv with createDir := fun _ => some "permission denied" }
        "add_users" { initState with migrationDir := "migs" }).2.trace,
      ev.isFileCreation = true → ev ∈ ([] : List Event) :=
  (newMigrationFile_error_handling
    { sampleEnv with createDir := fun _ => some "permission denied" }
    "add_users" { initState with migrationDir := "migs" }).2.1 "permission denied" rfl

/-- C3: the only file `newMigrationFile` asks the system to create is the one
at the migration directory joined with `<t>_<n>.sql`, where `<t>` is the
base-10 rendering of the Unix time, and it asks for it whenever the directory
step succeeds; for a time `0 ≤ t` (a signed 64-bit value) and a name free of
path separators, that file name is the last element of the path and splits at
its first underscore into a decimal version that parses to `t` and the
remainder `n ++ ".sql"`. -/
theorem newMigrationFile_file_name (env : Env) (filename : String) (s : State) :
    (∀ p, Event.osCreate p ∈ (newMigrationFile env filename s).2.trace →
      Event.osCreate p ∈ s.trace ∨
      p = filepathJoin s.migrationDir (formatInt env.now ++ "_" ++ filename ++ ".sql")) ∧
    (env.createDir s.migrationDir = none →
      Event.osCreate (filepathJoin s.migrationDir
          (formatInt env.now ++ "_" ++ filename ++ ".sql")) ∈
        (newMigrationFile env filename s).2.trace) ∧
    (0 ≤ env.now → env.now < 2 ^ 63 → '/' ∉ filename.data →
      filepathBase (filepathJoin s.migrationDir
          (formatInt env.now ++ "_" ++ filename ++ ".sql")) =
        formatInt env.now ++ "_" ++ filename ++ ".sql" ∧
      cutUnderscore (formatInt env.now ++ "_" ++ filename ++ ".sql").data =
        some ((formatInt env.now).data, (filename ++ ".sql").data) ∧
      parseInt (formatInt env.now) = some env.now) := by
  have htr := newMigrationFile_trace env filename s
  refine ⟨?_, ?_, ?_⟩
  · intro p hp
    rw [htr] at hp
    rcases List.mem_append.1 hp with hp | hp
    · exact Or.inl hp
    · right
      revert hp
      cases env.createDir s.migrationDir <;>
        cases env.osCreate (stubPath s.migrationDir env.now filename) <;>
        cases env.fileWrite (stubPath s.migrationDir env.now filename) defaultMigration <;>
        simp [stubPath]
  · intro h
    rw [htr, h]
    simp [stubPath]
  · intro h0 h63 hn
    have hplain := stubFileName_plain env.now filename hn
    obtain ⟨pre, hpre, hall⟩ := filepathJoin_elem s.migrationDir
    have hjoin := hall (stubFileName env.now filename) hplain
    refine ⟨?_, ?_, parseInt_formatInt env.now (by omega) h63⟩
    · apply String.ext
      show baseChars (filepathJoin s.migrationDir (stubFileName env.now filename)).data = _
      rw [hjoin]
      exact baseChars_elem pre _ hpre hplain.1 hplain.2.2.2
    · have hd := stubFileName_data env.now filename
      unfold stubFileName at hd
      rw [hd]
      exact cutUnderscore_append _ _ (formatInt_no_underscore env.now)

/-- Witness of C3: the stub `add_users` created at time 1700000000 in
`migs`. -/
theorem newMigrationFile_file_name_witness :
    Event.osCreate "migs/1700000000_add_users.sql" ∈
      (newMigrationFile sampleEnv "add_users" { initState with migrationDir := "migs" }).2.trace ∧
    filepathBase (filepathJoin "migs" (formatInt 1700000000 ++ "_" ++ "add_users" ++ ".sql")) =
      formatInt 1700000000 ++ "_" ++ "add_users" ++ ".sql" ∧
    cutUnderscore (formatInt 1700000000 ++ "_" ++ "add_users" ++ ".sql").data =
      some ((formatInt 1700000000).data, ("add_users" ++ ".sql").data) ∧
    parseInt (formatInt 1700000000) = some 1700000000 :=
  ⟨(newMigrationFile_file_name sampleEnv "add_users"
      { initState with migrationDir := "migs" }).2.1 rfl,
   (newMigrationFile_file_name sampleEnv "add_users"
      { initState with migrationDir := "migs" }).2.2 (by decide) (by decide) (by decide)⟩

/-- C4: when `newMigrationFile` succeeds it has made exactly one write to the
new file, between creating and closing it, and the bytes written are the line
`-- up` followed by the line `-- down`, each ended by a newline, with nothing
between or after them, whatever the name and the time. -/
theorem newMigrationFile_content (env : Env) (filename : String) (s : State)
    (h : (newMigrationFile env filename s).1 = none) :
    (newMigrationFile env filename s).2.trace =
      s.trace ++ [Event.enterNewMigrationFile filename, Event.createDir s.migrationDir,
        Event.printfCreating (stubPath s.migrationDir env.now filename),
        Event.osCreate (stubPath s.migrationDir env.now filename),
        Event.fileWrite (stubPath s.migrationDir env.now filename) "-- up\n-- down\n",
        Event.fileClose (stubPath s.migrationDir env.now filename)] ∧
    defaultMigration = "-- up" ++ "\n" ++ "-- down" ++ "\n" := by
  have hres := newMigrationFile_result env filename s
  have htr := newMigrationFile_trace env filename s
  rw [hres] at h
  refine ⟨?_, by decide⟩
  rw [htr]
  revert h
  cases env.createDir s.migrationDir <;>
    cases env.osCreate (stubPath s.migrationDir env.now filename) <;>
    cases env.fileWrite (stubPath s.migrationDir env.now filename) defaultMigration <;>
    simp [defaultMigration]

/-- Witness of C4: the stub `add_users` created at time 1700000000 in `migs`. -/
theorem newMigrationFile_content_witness :
    (newMigrationFile sampleEnv "add_users" { initState with migrationDir := "migs" }).1 = none ∧
    (newMigrationFile sampleEnv "add_users" { initState with migrationDir := "migs" }).2.trace =
      [] ++ [Event.enterNewMigrationFile "add_users", Event.createDir "migs",
        Event.printfCreating (stubPath "migs" 1700000000 "add_users"),
        Event.osCreate (stubPath "migs" 1700000000 "add_users"),
        Event.fileWrite (stubPath "migs" 1700000000 "add_users") "-- up\n-- down\n",
        Event.fileClose (stubPath "migs" 1700000000 "add_users")] ∧
    defaultMigration = "-- up" ++ "\n" ++ "-- down" ++ "\n" :=
  ⟨rfl, newMigrationFile_content sampleEnv "add_users"
    { initState with migrationDir := "migs" } rfl⟩

/-- The events `newMigrationFile` adds to the trace. -/
theorem newMigrationFile_newEvents (env : Env) (filename : String) (s : State) :
    newEvents s (newMigrationFile env filename s).2 =
      Event.enterNewMigrationFile filename :: Event.createDir s.migrationDir ::
        (match env.createDir s.migrationDir with
          | some _ => []
          | none =>
            Event.printfCreating (stubPath s.migrationDir env.now filename) ::
            Event.osCreate (stubPath s.migrationDir env.now filename) ::
            (match env.osCreate (stubPath s.migrationDir env.now filename) with
              | some _ => []
              | none =>
                Event.fileWrite (stubPath s.migrationDir env.now filename) defaultMigration ::
                (match env.fileWrite (stubPath s.migrationDir env.now filename)
                    defaultMigration with
                  | some _ => []
                  | none => [Event.fileClose (stubPath s.migrationDir env.now filename)]))) := by
  unfold newEvents
  rw [newMigrationFile_trace, List.drop_left]

/-- When the directory step succeeds, `newMigrationFile` asks for the creation
of one file, the one at `stubPath`. -/
theorem newMigrationFile_created (env : Env) (filename : String) (s : State)
    (hd : env.createDir s.migrationDir = none) :
    Event.osCreate (stubPath s.migrationDir env.now filename) ∈
        newEvents s (newMigrationFile env filename s).2 ∧
    ∀ p, Event.osCreate p ∈ newEvents s (newMigrationFile env filename s).2 →
      p = stubPath s.migrationDir env.now filename := by
  rw [newMigrationFile_newEvents, hd]
  refine ⟨by simp, ?_⟩
  intro p
  cases env.osCreate (stubPath s.migrationDir env.now filename) <;>
    cases env.fileWrite (stubPath s.migrationDir env.now filename) defaultMigration <;>
    simp

/-- For a name free of separators the created file is named `<t>_<n>.sql`. -/
theorem filepathBase_stubPath (d : String) (t : Int) (n : String) (hn : '/' ∉ n.data) :
    filepathBase (stubPath d t n) = stubFileName t n := by
  have hplain := stubFileName_plain t n hn
  obtain ⟨pre, hpre, hall⟩ := filepathJoin_elem d
  have hjoin := hall (stubFileName t n) hplain
  apply String.ext
  show baseChars (filepathJoin d (stubFileName t n)).data = _
  rw [hjoin]
  exact baseChars_elem pre _ hpre hplain.1 hplain.2.2.2

/-- The version prefix of `<t>_<n>.sql` is the rendering of `t`. -/
theorem versionPrefix_stubFileName (t : Int) (n : String) :
    versionPrefix (stubFileName t n) = some (formatInt t) := by
  unfold versionPrefix
  rw [stubFileName_data, cutUnderscore_append _ _ (formatInt_no_underscore t)]
  rfl

/-- C7 as stated fails: for the stub name `/../9_a` and the migration directory
`migs`, the file `newMigrationFile` creates at time 1700000000 and the file it
creates one second later are both `migs/9_a.sql`, whose version prefix is `9`
and parses to 9: the prefix is not the rendering of the time and the two
versions are equal. -/
theorem stub_version_from_name :
    sampleEnv.now = 1700000000 ∧ laterEnv.now = 1700000001 ∧
    Event.osCreate "migs/9_a.sql" ∈
      newEvents { initState with migrationDir := "migs" }
        (newMigrationFile sampleEnv "/../9_a" { initState with migrationDir := "migs" }).2 ∧
    Event.osCreate "migs/9_a.sql" ∈
      newEvents { initState with migrationDir := "migs" }
        (newMigrationFile laterEnv "/../9_a" { initState with migrationDir := "migs" }).2 ∧
    versionPrefix (filepathBase "migs/9_a.sql") = some "9" ∧
    parseVersion (filepathBase "migs/9_a.sql") = some 9 ∧
    formatInt 1700000000 ≠ "9" ∧ formatInt 1700000001 ≠ "9" := by
  decide

/-- C7 amended: for stub names free of path separators, the file
`newMigrationFile` creates at Unix time `t` (a signed 64-bit number of
seconds) has as version prefix, the text before the first underscore of its
file name, the base-10 rendering of `t`; for two runs at times `t1 < t2`, each
run asks for the creation of exactly one file once its directory step
succeeded, the two version prefixes are different strings, they parse back to
`v1 = t1` and `v2 = t2` with `v1 < v2`, and the two file names differ. -/
theorem stub_version_monotonic (env1 env2 : Env) (n1 n2 : String) (s1 s2 : State)
    (hd1 : env1.createDir s1.migrationDir = none)
    (hd2 : env2.createDir s2.migrationDir = none)
    (hn1 : '/' ∉ n1.data) (hn2 : '/' ∉ n2.data)
    (hlo : -2 ^ 63 ≤ env1.now) (hlt : env1.now < env2.now) (hhi : env2.now < 2 ^ 63) :
    ∃ p1 p2 : String,
      (Event.osCreate p1 ∈ newEvents s1 (newMigrationFile env1 n1 s1).2 ∧
        ∀ p, Event.osCreate p ∈ newEvents s1 (newMigrationFile env1 n1 s1).2 → p = p1) ∧
      (Event.osCreate p2 ∈ newEvents s2 (newMigrationFile env2 n2 s2).2 ∧
        ∀ p, Event.osCreate p ∈ newEvents s2 (newMigrationFile env2 n2 s2).2 → p = p2) ∧
      versionPrefix (filepathBase p1) = some (formatInt env1.now) ∧
      versionPrefix (filepathBase p2) = some (formatInt env2.now) ∧
      versionPrefix (filepathBase p1) ≠ versionPrefix (filepathBase p2) ∧
      filepathBase p1 ≠ filepathBase p2 ∧
      ∃ v1 v2 : Int, parseVersion (filepathBase p1) = some v1 ∧
        parseVersion (filepathBase p2) = some v2 ∧
        v1 = env1.now ∧ v2 = env2.now ∧ v1 < v2 := by
  have hp1 := parseInt_formatInt env1.now hlo (by omega)
  have hp2 := parseInt_formatInt env2.now (by omega) hhi
  have hb1 := filepathBase_stubPath s1.migrationDir env1.now n1 hn1
  have hb2 := filepathBase_stubPath s2.migrationDir env2.now n2 hn2
  have hv1 := versionPrefix_stubFileName env1.now n1
  have hv2 := versionPrefix_stubFileName env2.now n2
  have hne : formatInt env1.now ≠ formatInt env2.now := by
    intro e
    rw [e, hp2] at hp1
    have : env2.now = env1.now := Option.some.inj hp1
    omega
  have hvne : versionPrefix (stubFileName env1.now n1) ≠
      versionPrefix (stubFileName env2.now n2) := by
    rw [hv1, hv2]
    intro e
    exact hne (Option.some.inj e)
  refine ⟨stubPath s1.migrationDir env1.now n1, stubPath s2.migrationDir env2.now n2,
    newMigrationFile_created env1 n1 s1 hd1, newMigrationFile_created env2 n2 s2 hd2, ?_⟩
  rw [hb1, hb2]
  refine ⟨hv1, hv2, hvne, ?_, env1.now, env2.now, ?_, ?_, rfl, rfl, hlt⟩
  · intro e
    exact hvne (by rw [e])
  · simp only [parseVersion, hv1, hp1]
  · simp only [parseVersion, hv2, hp2]

/-- Witness of the amended C7: the stub `add_users` created at time 1700000000
and the stub `add_orders` created one second later, both in `migs`. -/
theorem stub_version_monotonic_witness :
    ∃ p1 p2 : String,
      (Event.osCreate p1 ∈ newEvents { initState with migrationDir := "migs" }
          (newMigrationFile sampleEnv "add_users" { initState with migrationDir := "migs" }).2 ∧
        ∀ p, Event.osCreate p ∈ newEvents { initState with migrationDir := "migs" }
          (newMigrationFile sampleEnv "add_users"
            { initState with migrationDir := "migs" }).2 → p = p1) ∧
      (Event.osCreate p2 ∈ newEvents { initState with migrationDir := "migs" }
          (newMigrationFile laterEnv "add_orders" { initState with migrationDir := "migs" }).2 ∧
        ∀ p, Event.osCreate p ∈ newEvents { initState with migrationDir := "migs" }
          (newMigrationFile laterEnv "add_orders"
            { initState with migrationDir := "migs" }).2 → p = p2) ∧
      versionPrefix (filepathBase p1) = some (formatInt sampleEnv.now) ∧
      versionPrefix (filepathBase p2) = some (formatInt laterEnv.now) ∧
      versionPrefix (filepathBase p1) ≠ versionPrefix (filepathBase p2) ∧
      filepathBase p1 ≠ filepathBase p2 ∧
      ∃ v1 v2 : Int, parseVersion (filepathBase p1) = some v1 ∧
        parseVersion (filepathBase p2) = some v2 ∧
        v1 = sampleEnv.now ∧ v2 = laterEnv.now ∧ v1 < v2 :=
  stub_version_monotonic sampleEnv laterEnv "add_users" "add_orders"
    { initState with migrationDir := "migs" } { initState with migrationDir := "migs" }
    rfl rfl (by decide) (by decide) (by decide) (by decide) (by decide)

/-- C8 as stated fails: within one second the names `a//b` and `a/b` are
different and `newMigrationFile` computes the same path for both, because
`filepath.Join` cleans the joined path. -/
theorem stubPath_collision :
    "a//b" ≠ "a/b" ∧
    stubPath "migrations" 1700000000 "a//b" = stubPath "migrations" 1700000000 "a/b" ∧
    stubPath "migrations" 1700000000 "a/b" = "migrations/1700000000_a/b.sql" := by
  decide

/-- C8 amended: for names free of path separators, two different names give
two different paths, for every migration directory and every time. -/
theorem stubPath_injective (d : String) (t : Int) (n1 n2 : String)
    (h1 : '/' ∉ n1.data) (h2 : '/' ∉ n2.data) (hne : n1 ≠ n2) :
    stubPath d t n1 ≠ stubPath d t n2 := by
  intro e
  obtain ⟨pre, -, hall⟩ := filepathJoin_elem d
  have e1 := hall (stubFileName t n1) (stubFileName_plain t n1 h1)
  have e2 := hall (stubFileName t n2) (stubFileName_plain t n2 h2)
  have e' : (filepathJoin d (stubFileName t n1)).data =
      (filepathJoin d (stubFileName t n2)).data := congrArg String.data e
  rw [e1, e2] at e'
  exact hne (stubFileName_inj t n1 n2 (List.append_cancel_left e'))

/-- Witness of the amended C8: the names `add_users` and `add_orders`. -/
theorem stubPath_injective_witness :
    ('/' ∉ "add_users".data ∧ '/' ∉ "add_orders".data ∧ "add_users" ≠ "add_orders") ∧
    stubPath "migrations" 1700000000 "add_users" ≠
      stubPath "migrations" 1700000000 "add_orders" :=
  ⟨by decide, stubPath_injective "migrations" 1700000000 "add_users" "add_orders"
    (by decide) (by decide) (by decide)⟩

/-! ## The connection step -/

/-- For a driver other than the two known ones `openDbConnection` only returns. -/
theorem openDbConnection_other (env : Env) (driver : String) (s : State)
    (h1 : driver ≠ "postgres") (h2 : driver ≠ "sqlite") :
    openDbConnection env driver s = .ret none (s.emit (.enterOpenDbConnection driver)) := by
  simp [openDbConnection, h1, h2]

/-- The run of `main` up to the call of `RunMigration` when every step before
it succeeds and the configured driver is not one of the two known ones. -/
theorem main_other_driver (env : Env) (p : String) (conf : Config)
    (hpath : env.getFilePath = .ok p) (hparse : env.flagParseExit = none)
    (hcreate : env.flagCreate.getD "" = "")
    (hload : env.loadMigrations freshMigrator = none)
    (hconf : env.loadConfig (env.flagConfig.getD p) = .ok conf)
    (h1 : conf.Driver ≠ "postgres") (h2 : conf.Driver ≠ "sqlite") :
    Event.runMigration { Log := .tmpLogger, Conn := none } ∈ (main env).state.trace ∧
    (main env).state.dbConn = none := by
  unfold freshMigrator at hload
  simp only [main, hpath, hparse, parseFlags, hcreate, State.emit, initState, ne_eq,
    not_true_eq_false, if_false, hload, hconf, mainConnected,
    openDbConnection_other env conf.Driver _ h1 h2]
  cases env.runMigration { Log := .tmpLogger, Conn := none } <;> simp [Res.state]

/-- C10: `openDbConnection(driver)` returns an error if and only if the driver
is exactly `postgres` or `sqlite` and that backend's `Connect` fails; for any
other driver it calls no `Connect`, returns no error and leaves `dbConn` as it
was; called from `main` with such a driver, `dbConn` is still nil when
`RunMigration` is called on it (in a run that passed `config.GetFilePath` and
`flag.Parse`), so a nil error does not make `dbConn` a live connection. -/
theorem openDbConnection_error_iff (env : Env) (driver : String) (s : State) :
    ((∃ err s', openDbConnection env driver s = .ret (some err) s') ↔
      (driver = "postgres" ∧ env.postgresConnect.2 ≠ none) ∨
      (driver = "sqlite" ∧ env.sqliteConnect.2 ≠ none)) ∧
    (driver ≠ "postgres" → driver ≠ "sqlite" →
      openDbConnection env driver s = .ret none (s.emit (.enterOpenDbConnection driver)) ∧
      (openDbConnection env driver s).state.trace =
        s.trace ++ [Event.enterOpenDbConnection driver] ∧
      (openDbConnection env driver s).state.dbConn = s.dbConn) ∧
    (∀ p conf, env.getFilePath = .ok p → env.flagParseExit = none →
      env.flagCreate.getD "" = "" →
      env.loadMigrations freshMigrator = none →
      env.loadConfig (env.flagConfig.getD p) = .ok conf →
      conf.Driver ≠ "postgres" → conf.Driver ≠ "sqlite" →
      Event.runMigration { Log := .tmpLogger, Conn := none } ∈ (main env).state.trace ∧
      (main env).state.dbConn = none) := by
  refine ⟨?_, ?_, ?_⟩
  · by_cases hp : driver = "postgres"
    · subst hp
      simp only [openDbConnection, if_true, State.emit, true_and]
      have hne : ¬ ("postgres" = "sqlite") := by decide
      simp only [hne, false_and, or_false]
      rcases env.postgresConnect with ⟨conn, err⟩
      cases err with
      | some e => simp
      | none =>
        cases conn with
        | none => simp
        | some c =>
          cases hsql : c.SQL <;> simp [hsql]
    · by_cases hs : driver = "sqlite"
      · subst hs
        have hne : ¬ ("sqlite" = "postgres") := by decide
        simp only [openDbConnection, hne, if_false, if_true, State.emit, false_and, true_and,
          false_or]
        rcases env.sqliteConnect with ⟨conn, err⟩
        cases err <;> simp
      · simp [openDbConnection, hp, hs]
  · intro h1 h2
    rw [openDbConnection_other env driver s h1 h2]
    exact ⟨rfl, rfl, rfl⟩
  · intro p conf hpath hparse hcreate hload hconf h1 h2
    exact main_other_driver env p conf hpath hparse hcreate hload hconf h1 h2

/-- Witness of C10: a configuration that names the driver `mysql`. -/
theorem openDbConnection_error_iff_witness :
    (openDbConnection sampleEnv "mysql" initState =
        .ret none (initState.emit (.enterOpenDbConnection "mysql")) ∧
      (openDbConnection sampleEnv "mysql" initState).state.trace =
        [] ++ [Event.enterOpenDbConnection "mysql"] ∧
      (openDbConnection sampleEnv "mysql" initState).state.dbConn = none) ∧
    (Event.runMigration { Log := .tmpLogger, Conn := none } ∈ (main mysqlEnv).state.trace ∧
      (main mysqlEnv).state.dbConn = none) :=
  ⟨(openDbConnection_error_iff sampleEnv "mysql" initState).2.1 (by decide) (by decide),
   (openDbConnection_error_iff mysqlEnv "mysql" initState).2.2
      "/home/user/.gocryptotrader/config.json" { Driver := "mysql", Host := "localhost" }
      rfl rfl rfl rfl rfl (by decide) (by decide)⟩

/-! ## The control flow of `main` -/

/-- The connection step does not read `migrationDir`. -/
theorem openDbConnection_setMigrationDir (env : Env) (driver dir : String) (s : State) :
    openDbConnection env driver (s.setMigrationDir dir) =
      (openDbConnection env driver s).mapState (State.setMigrationDir dir) := by
  simp only [openDbConnection, State.emit, State.setMigrationDir]
  split
  · rcases env.postgresConnect with ⟨conn, err⟩
    cases err with
    | some e => rfl
    | none =>
      cases conn with
      | none => rfl
      | some c =>
        cases hsql : c.SQL <;> simp [hsql, Res.mapState, State.setMigrationDir]
  · split
    · rcases env.sqliteConnect with ⟨conn, err⟩
      cases err <;> rfl
    · rfl

/-- The part of `main` after the configuration was loaded does not read
`migrationDir`. -/
theorem mainConnected_setMigrationDir (env : Env) (temp : Migrator) (conf : Config)
    (dir : String) (s : State) :
    mainConnected env temp conf (s.setMigrationDir dir) =
      (mainConnected env temp conf s).mapState (State.setMigrationDir dir) := by
  unfold mainConnected
  rw [openDbConnection_setMigrationDir]
  cases openDbConnection env conf.Driver s with
  | panic s' => rfl
  | exit code s' => rfl
  | ret a s' =>
    cases a with
    | some err => rfl
    | none =>
      simp only [Res.mapState, State.emit, State.setMigrationDir]
      cases env.runMigration { Log := temp.Log, Conn := s'.dbConn } with
      | some err => rfl
      | none =>
        cases hconn : s'.dbConn with
        | none => rfl
        | some conn =>
          cases hsql : conn.SQL with
          | none => simp [hsql, Res.mapState]
          | some db =>
            simp only [hsql]
            cases env.sqlClose db <;> rfl

theorem Res.mapState_exitCode (f : State → State) (r : Res Unit) :
    (r.mapState f).exitCode = r.exitCode := by
  cases r <;> rfl

/-- The part of `main` after the configuration was loaded uses the two
drivers, `RunMigration` and `Close`, and nothing else of the environment. -/
theorem mainConnected_flags (env : Env) (gp : Except Error String) (fe : Option Nat)
    (a : Option String) (temp : Migrator) (conf : Config) (s : State) :
    mainConnected { env with getFilePath := gp, flagParseExit := fe, flagMigrationDir := a }
        temp conf s =
      mainConnected env temp conf s := by
  simp only [mainConnected, openDbConnection]

/-- Without `--create`, the run of `main` is the same for every value of
`--migrationdir`, up to the value stored in the variable `migrationDir`. -/
theorem main_setMigrationDir (env : Env) (a b : Option String)
    (hcreate : env.flagCreate.getD "" = "") :
    ∃ f : State → State, (∀ s, (f s).trace = s.trace ∧ (f s).dbConn = s.dbConn) ∧
      main { env with flagMigrationDir := a } =
        (main { env with flagMigrationDir := b }).mapState f := by
  cases hpath : env.getFilePath with
  | error err =>
    refine ⟨id, fun s => ⟨rfl, rfl⟩, ?_⟩
    simp [main, hpath, Res.mapState]
  | ok p =>
    refine ⟨State.setMigrationDir (a.getD env.mgMigrationDir), fun s => ⟨rfl, rfl⟩, ?_⟩
    cases hparse : env.flagParseExit with
    | some code =>
      simp only [main, hpath, hparse, parseFlags]
      rfl
    | none =>
      simp only [main, hpath, hparse, parseFlags, hcreate, ne_eq, not_true_eq_false, if_false,
        State.emit, initState]
      cases hload : env.loadMigrations { Log := .tmpLogger, Conn := none } with
      | some err => rfl
      | none =>
        simp only []
        cases hconf : env.loadConfig (env.flagConfig.getD p) with
        | error err => rfl
        | ok conf =>
          simp only [mainConnected_flags]
          rw [← mainConnected_setMigrationDir]
          rfl

theorem mem_append_or (P : Event → Prop) (base evs : List Event) (h : ∀ ev ∈ evs, P ev) :
    ∀ ev ∈ base ++ evs, ev ∈ base ∨ P ev := by
  intro ev hev
  rcases List.mem_append.1 hev with h1 | h1
  · exact Or.inl h1
  · exact Or.inr (h ev h1)

/-- The connection step adds no load call and no stub call to the trace. -/
theorem openDbConnection_events (env : Env) (driver : String) (s : State) :
    ∀ ev ∈ (openDbConnection env driver s).state.trace,
      ev ∈ s.trace ∨ (ev.isLoad = false ∧ ev.isStubCall = false) := by
  simp only [openDbConnection, State.emit]
  split
  · rcases env.postgresConnect with ⟨conn, err⟩
    cases err with
    | some e =>
      simp only [Res.state, List.append_assoc, List.singleton_append]
      exact mem_append_or _ _ _ (by simp [Event.isLoad, Event.isStubCall])
    | none =>
      cases conn with
      | none =>
        simp only [Res.state, List.append_assoc, List.singleton_append]
        exact mem_append_or _ _ _ (by simp [Event.isLoad, Event.isStubCall])
      | some c =>
        cases hsql : c.SQL with
        | none =>
          simp only [hsql, Res.state, List.append_assoc, List.singleton_append]
          exact mem_append_or _ _ _ (by simp [Event.isLoad, Event.isStubCall])
        | some db =>
          simp only [hsql, Res.state, List.append_assoc, List.singleton_append]
          exact mem_append_or _ _ _ (by simp [Event.isLoad, Event.isStubCall])
  · split
    · rcases env.sqliteConnect with ⟨conn, err⟩
      cases err <;>
        · simp only [Res.state, List.append_assoc, List.singleton_append]
          exact mem_append_or _ _ _ (by simp [Event.isLoad, Event.isStubCall])
    · simp only [Res.state]
      exact mem_append_or _ _ _ (by simp [Event.isLoad, Event.isStubCall])

/-- The part of `main` after the configuration was loaded adds no load call and
no stub call to the trace. -/
theorem mainConnected_events (env : Env) (temp : Migrator) (conf : Config) (s : State) :
    ∀ ev ∈ (mainConnected env temp conf s).state.trace,
      ev ∈ s.trace ∨ (ev.isLoad = false ∧ ev.isStubCall = false) := by
  have hopenEv := openDbConnection_events env conf.Driver s
  unfold mainConnected
  cases hopen : openDbConnection env conf.Driver s with
  | panic s' => rw [hopen] at hopenEv; exact hopenEv
  | exit code s' => rw [hopen] at hopenEv; exact hopenEv
  | ret a s' =>
    rw [hopen] at hopenEv
    simp only [Res.state] at hopenEv
    have hsnoc : ∀ extra : List Event,
        (∀ ev ∈ extra, ev.isLoad = false ∧ ev.isStubCall = false) →
        ∀ ev ∈ s'.trace ++ extra,
          ev ∈ s.trace ∨ (ev.isLoad = false ∧ ev.isStubCall = false) := by
      intro extra hextra ev hev
      rcases List.mem_append.1 hev with h | h
      · exact hopenEv ev h
      · exact Or.inr (hextra ev h)
    cases a with
    | some err =>
      simp only [Res.state, State.emit]
      exact hsnoc _ (by simp [Event.isLoad, Event.isStubCall])
    | none =>
      simp only [State.emit]
      cases env.runMigration { Log := temp.Log, Conn := s'.dbConn } with
      | some err =>
        simp only [Res.state, List.append_assoc, List.singleton_append]
        exact hsnoc _ (by simp [Event.isLoad, Event.isStubCall])
      | none =>
        cases hconn : s'.dbConn with
        | none =>
          simp only [Res.state, List.append_assoc, List.singleton_append]
          exact hsnoc _ (by simp [Event.isLoad, Event.isStubCall])
        | some conn =>
          cases hsql : conn.SQL with
          | none =>
            simp only [hsql, Res.state, List.append_assoc, List.singleton_append]
            exact hsnoc _ (by simp [Event.isLoad, Event.isStubCall])
          | some db =>
            simp only [hsql]
            cases env.sqlClose db <;>
              · simp only [Res.state, List.append_assoc, List.singleton_append]
                exact hsnoc _ (by simp [Event.isLoad, Event.isStubCall])

/-- The run of `main` when `config.GetFilePath` fails. -/
theorem main_path_error (env : Env) (err : Error) (hpath : env.getFilePath = .error err) :
    main env =
      .exit 1 { initState with trace :=
        [.println "GoCryptoTrader database migration tool", .println env.copyright,
          .println "", .getFilePath, .printErr err] } := by
  simp [main, hpath, State.emit, initState]

/-- The run of `main` when `flag.Parse` ends the process. -/
theorem main_parse_exit (env : Env) (p : String) (code : Nat)
    (hpath : env.getFilePath = .ok p) (hparse : env.flagParseExit = some code) :
    main env = .exit code (parsedState env p) := by
  simp only [main, hpath, hparse, parsedState]

/-- The trace of `main` up to the return of `flag.Parse`. -/
theorem parsedState_trace (env : Env) (p : String) :
    (parsedState env p).trace =
      [.println "GoCryptoTrader database migration tool", .println env.copyright,
        .println "", .getFilePath, .flagParse] := by
  simp [parsedState, parseFlags, State.emit, initState]

/-- The run of `main` when the variable `createMigration` is not empty after
the flags were parsed. -/
theorem main_create_getD (env : Env) (p : String) (hpath : env.getFilePath = .ok p)
    (hparse : env.flagParseExit = none) (hc : env.flagCreate.getD "" ≠ "") :
    main env =
      match newMigrationFile env (env.flagCreate.getD "") (parsedState env p) with
      | (some err, s) => .exit 1 (s.emit (.printErr err))
      | (none, s) => .exit 0 (s.emit (.println "Migration created successfully")) := by
  simp only [main, hpath, hparse, parsedState, parseFlags, ne_eq, hc, not_false_eq_true,
    if_true]

/-- The run of `main` when `LoadMigrations` fails. -/
theorem main_load_error (env : Env) (p : String) (err : Error)
    (hpath : env.getFilePath = .ok p) (hparse : env.flagParseExit = none)
    (hcreate : env.flagCreate.getD "" = "")
    (hload : env.loadMigrations freshMigrator = some err) :
    main env =
      .exit 0 (((parsedState env p).emit (.loadMigrations freshMigrator)).emit
        (.printErr err)) := by
  unfold freshMigrator at hload
  simp only [main, hpath, hparse, parsedState, parseFlags, hcreate, ne_eq, not_true_eq_false,
    if_false, hload, freshMigrator]

/-- Every call of `LoadMigrations` in a run of `main` is made on the fresh
migrator, on the path without `--create`, after `config.GetFilePath`
succeeded and `flag.Parse` returned. -/
theorem main_loadMigrations_calls (env : Env) (m : Migrator)
    (h : Event.loadMigrations m ∈ (main env).state.trace) :
    m = freshMigrator ∧ env.flagCreate.getD "" = "" ∧ env.flagParseExit = none ∧
      ∃ p, env.getFilePath = .ok p := by
  cases hpath : env.getFilePath with
  | error err =>
    exfalso
    rw [main_path_error env err hpath] at h
    simp [Res.state] at h
  | ok p =>
    cases hparse : env.flagParseExit with
    | some code =>
      exfalso
      rw [main_parse_exit env p code hpath hparse] at h
      simp [Res.state, parsedState_trace] at h
    | none =>
      by_cases hc : env.flagCreate.getD "" = ""
      · refine ⟨?_, hc, rfl, p, rfl⟩
        simp only [main, hpath, hparse, parseFlags, hc, ne_eq, not_true_eq_false,
          if_false] at h
        cases hload : env.loadMigrations { Log := .tmpLogger, Conn := none } with
        | some err =>
          simp only [hload, Res.state, State.emit, initState] at h
          simpa [freshMigrator] using h
        | none =>
          simp only [hload] at h
          cases hconf : env.loadConfig (env.flagConfig.getD p) with
          | error err =>
            simp only [State.emit, initState, hconf, Res.state] at h
            simpa [freshMigrator] using h
          | ok conf =>
            simp only [State.emit, initState, hconf] at h
            rcases mainConnected_events env _ conf _ _ h with h1 | h1
            · simpa [freshMigrator] using h1
            · simp [Event.isLoad] at h1
      · exfalso
        rw [main_create_getD env p hpath hparse hc] at h
        have hs0tr : Event.loadMigrations m ∉ (parsedState env p).trace := by
          simp [parsedState_trace]
        obtain ⟨evs, htr, hall⟩ :=
          newMigrationFile_events env (env.flagCreate.getD "") (parsedState env p)
        revert h
        rcases hnm : newMigrationFile env (env.flagCreate.getD "") (parsedState env p)
          with ⟨r, s1⟩
        rw [hnm] at htr
        simp only at htr
        have hno : Event.loadMigrations m ∉ s1.trace := by
          rw [htr]
          intro hmem
          rcases List.mem_append.1 hmem with h1 | h1
          · exact hs0tr h1
          · have := (hall _ h1).2
            simp [Event.isLoad] at this
        cases r with
        | some err =>
          simp only [Res.state, State.emit]
          intro hmem
          rcases List.mem_append.1 hmem with h1 | h1
          · exact hno h1
          · simp at h1
        | none =>
          simp only [Res.state, State.emit]
          intro hmem
          rcases List.mem_append.1 hmem with h1 | h1
          · exact hno h1
          · simp at h1

/-- C1, at the failing input: in a run without `--create` (past
`config.GetFilePath` and `flag.Parse`) in which `LoadMigrations` returns an
error, `main` prints that error and then ends the process with `os.Exit(0)`;
the exit code is 0 although a load failure occurred. -/
theorem main_exit_zero_on_load_error (env : Env) (p : String) (err : Error)
    (hpath : env.getFilePath = .ok p) (hparse : env.flagParseExit = none)
    (hcreate : env.flagCreate.getD "" = "")
    (hload : env.loadMigrations freshMigrator = some err) :
    main env =
      .exit 0 (((parsedState env p).emit (.loadMigrations freshMigrator)).emit
        (.printErr err)) ∧
    (main env).exitCode = 0 ∧
    (main env).state.trace.getLast? = some (Event.printErr err) := by
  have h := main_load_error env p err hpath hparse hcreate hload
  rw [h]
  refine ⟨rfl, rfl, ?_⟩
  simp [Res.state, State.emit]

/-- Witness of C1: two migration files share a version. -/
theorem main_exit_zero_on_load_error_witness :
    main loadErrorEnv =
      .exit 0 (((parsedState loadErrorEnv "/home/user/.gocryptotrader/config.json").emit
        (.loadMigrations freshMigrator)).emit (.printErr "duplicate version")) ∧
    (main loadErrorEnv).exitCode = 0 ∧
    (main loadErrorEnv).state.trace.getLast? = some (Event.printErr "duplicate version") :=
  main_exit_zero_on_load_error loadErrorEnv "/home/user/.gocryptotrader/config.json"
    "duplicate version" rfl rfl rfl rfl

/-- C6: in a run of `main` in which `LoadMigrations` is called and returns an
error, the process ends through `os.Exit` without any database interaction:
`openDbConnection`, either backend's `Connect` and `RunMigration` are never
called and `dbConn` is still nil at the end. -/
theorem main_load_error_before_database (env : Env) (m : Migrator) (err : Error)
    (hcall : Event.loadMigrations m ∈ (main env).state.trace)
    (herr : env.loadMigrations m = some err) :
    (∃ code s, main env = .exit code s) ∧
    (∀ ev ∈ (main env).state.trace, ev.isDatabase = false) ∧
    (main env).state.dbConn = none := by
  obtain ⟨hm, hcreate, hparse, p, hpath⟩ := main_loadMigrations_calls env m hcall
  subst hm
  rw [main_load_error env p err hpath hparse hcreate herr]
  refine ⟨⟨_, _, rfl⟩, ?_, rfl⟩
  simp [Res.state, State.emit, parsedState, parseFlags, initState, Event.isDatabase]

/-- Witness of C6: two migration files share a version. -/
theorem main_load_error_before_database_witness :
    (Event.loadMigrations freshMigrator ∈ (main loadErrorEnv).state.trace ∧
      loadErrorEnv.loadMigrations freshMigrator = some "duplicate version") ∧
    (∃ code s, main loadErrorEnv = .exit code s) ∧
    (∀ ev ∈ (main loadErrorEnv).state.trace, ev.isDatabase = false) ∧
    (main loadErrorEnv).state.dbConn = none :=
  ⟨⟨by decide, rfl⟩,
    main_load_error_before_database loadErrorEnv freshMigrator "duplicate version"
      (by decide) rfl⟩

/-- C9, at the failing input: without `--create`, the calls `main` makes, the
exit code and the final connection handle are the same for any two values of
`--migrationdir` (given or not); every `LoadMigrations` call is made on the
migrator that has only its logger set, so the directory given on the command
line never reaches the migrator. -/
theorem main_migrationdir_not_used_for_loading (env : Env) (a b : Option String)
    (hcreate : env.flagCreate.getD "" = "") :
    (main { env with flagMigrationDir := a }).state.trace =
      (main { env with flagMigrationDir := b }).state.trace ∧
    (main { env with flagMigrationDir := a }).exitCode =
      (main { env with flagMigrationDir := b }).exitCode ∧
    (main { env with flagMigrationDir := a }).state.dbConn =
      (main { env with flagMigrationDir := b }).state.dbConn ∧
    (∀ m, Event.loadMigrations m ∈ (main { env with flagMigrationDir := a }).state.trace →
      m = { Log := .tmpLogger, Conn := none }) := by
  obtain ⟨f, hf, hmain⟩ := main_setMigrationDir env a b hcreate
  refine ⟨?_, ?_, ?_, ?_⟩
  · rw [hmain]
    cases main { env with flagMigrationDir := b } <;> exact (hf _).1
  · rw [hmain]
    exact Res.mapState_exitCode f _
  · rw [hmain]
    cases main { env with flagMigrationDir := b } <;> exact (hf _).2
  · intro m hm
    exact (main_loadMigrations_calls _ m hm).1

/-- Witness of C9: the run with `--migrationdir migs` makes the same calls as
the run without the flag. -/
theorem main_migrationdir_not_used_for_loading_witness :
    (main { sampleEnv with flagMigrationDir := some "migs" }).state.trace =
      (main { sampleEnv with flagMigrationDir := none }).state.trace ∧
    (main { sampleEnv with flagMigrationDir := some "migs" }).exitCode =
      (main { sampleEnv with flagMigrationDir := none }).exitCode ∧
    (main { sampleEnv with flagMigrationDir := some "migs" }).state.dbConn =
      (main { sampleEnv with flagMigrationDir := none }).state.dbConn ∧
    (∀ m, Event.loadMigrations m ∈
        (main { sampleEnv with flagMigrationDir := some "migs" }).state.trace →
      m = { Log := .tmpLogger, Conn := none }) :=
  main_migrationdir_not_used_for_loading sampleEnv (some "migs") none rfl

end DbMigrate
